import Mathlib

/-
Verification development for the mesh-analysis engine of the 3d-gen-print
repository. The engine is the function calculateModelStats in
src/components/model-viewer.tsx (lines 74-159): a single traversal over a
decoded three.js scene that produces triangle/vertex/mesh counts, a world
space bounding box with rounded dimensions, a volume and surface area via a
per-triangle divergence accumulation, and a watertightness verdict from an
edge-incidence map.

Modelling conventions:
- IEEE doubles are idealised as exact real numbers; coordinates live in ℝ.
- The accumulator for the triangle count is exact, so it is a rational
  (JavaScript adds count / 3 with float division; on in-range integers this
  is exact rational arithmetic until the final Math.round).
- JavaScript Math.round is Int.floor (x + 1/2) (halves round toward +inf).
- three.js Vector3.cross MUTATES its receiver: v1.cross(v2) overwrites v1
  with v1 x v2 and returns it.  The embedding of the per-triangle loop
  reflects this: after the volume line the register named v1 holds the
  cross product, and the subsequent edge1 computation reads that value.
- The watertightness loop (lines 124-140) iterates i = 0, 3, 6, ... while
  i < idx.length, reading idx[i+1] and idx[i+2] even when they are out of
  range; an out-of-range read yields the JavaScript value undefined, which
  flows into the string edge key.  Index-array reads are therefore embedded
  as Option ℕ (none = undefined), and the JavaScript comparison v1 < v2,
  which is false whenever either side is undefined, is embedded as jsLt.
  Number-to-string rendering is injective on these keys (the key strings
  contain exactly one dash), so keys are modelled as ordered pairs.
- The volume/area loop (lines 109-119) likewise reads past the end of a
  non-multiple-of-3 index buffer; there the out-of-range reads produce NaN
  coordinates, which exact reals cannot represent.  That loop is embedded
  over the complete index triples only; theorems whose content depends on
  the volume/area numbers of a scene therefore carry the data-model
  well-formedness hypothesis (buffer lengths divisible by 3) under which
  the embedding agrees with the source.
- Vertex-buffer reads use a zero default for the same reason; all concrete
  scenes used below have every index in range.
-/

namespace ModelViewer

/-- Model of THREE.Vector3: three exact real coordinates. -/
structure Vector3 where
  x : ℝ
  y : ℝ
  z : ℝ

/-- THREE.Vector3.cross / crossVectors result value, a x b.  In three.js
the instance method a.cross(b) also stores this value into a. -/
noncomputable def Vector3.cross (a b : Vector3) : Vector3 :=
  ⟨a.y * b.z - a.z * b.y, a.z * b.x - a.x * b.z, a.x * b.y - a.y * b.x⟩

/-- THREE.Vector3.dot. -/
noncomputable def Vector3.dot (a b : Vector3) : ℝ :=
  a.x * b.x + a.y * b.y + a.z * b.z

/-- THREE.Vector3.subVectors: the componentwise difference a - b. -/
noncomputable def Vector3.subVectors (a b : Vector3) : Vector3 :=
  ⟨a.x - b.x, a.y - b.y, a.z - b.z⟩

/-- THREE.Vector3.length: the Euclidean norm. -/
noncomputable def Vector3.length (a : Vector3) : ℝ :=
  Real.sqrt (a.x ^ 2 + a.y ^ 2 + a.z ^ 2)

/-- Componentwise scaling of a vector by a scalar (the effect of a uniform
scale transform on a point). -/
noncomputable def Vector3.smul (k : ℝ) (a : Vector3) : Vector3 :=
  ⟨k * a.x, k * a.y, k * a.z⟩

/-- JavaScript Math.round on an exact rational: floor (q + 1/2). -/
def jsRoundQ (q : ℚ) : ℤ := ⌊q + 1 / 2⌋

/-- JavaScript Math.round on an exact real: floor (x + 1/2). -/
noncomputable def jsRoundR (x : ℝ) : ℤ := ⌊x + 1 / 2⌋

/-- Math.round (x * 100) / 100, the two-decimal rounding used for the
dimensions and the surface area (lines 149-151 and 154). -/
noncomputable def round2 (x : ℝ) : ℝ := (jsRoundR (x * 100) : ℝ) / 100

/-- Math.round (x * 1000) / 1000, the three-decimal rounding used for the
volume (line 153). -/
noncomputable def round3 (x : ℝ) : ℝ := (jsRoundR (x * 1000) : ℝ) / 1000

/-- A submesh as the analysis sees it: the position attribute (the vertex
buffer) and the optional index buffer of its BufferGeometry. -/
structure Mesh where
  position : List Vector3
  index : Option (List ℕ)

/-- The decoded scene: its mesh children in traversal order, together with
the root transform restricted to a uniform scale factor (the only transform
shape the specification's scaling property quantifies over).  Submeshes are
taken with identity local transforms, so the world matrix of every mesh is
the root transform. -/
structure Scene where
  scale : ℝ
  meshes : List Mesh

/-- Uniformly scaling the scene's root transform by k. -/
noncomputable def scaleScene (k : ℝ) (s : Scene) : Scene :=
  { s with scale := k * s.scale }

/-- Model of THREE.Box3: none is the empty box (the +inf / -inf initial
state), some (mn, mx) the box with those corners. -/
def Box3 : Type := Option (Vector3 × Vector3)

/-- THREE.Box3.expandByPoint. -/
noncomputable def Box3.expandByPoint (b : Box3) (p : Vector3) : Box3 :=
  match b with
  | none => some (p, p)
  | some (mn, mx) =>
      some (⟨min mn.x p.x, min mn.y p.y, min mn.z p.z⟩,
            ⟨max mx.x p.x, max mx.y p.y, max mx.z p.z⟩)

/-- THREE.Box3().setFromObject(scene) (line 82): the world-space
axis-aligned bounding box of every vertex of every mesh child, each vertex
transformed by its world matrix (here: the root uniform scale). -/
noncomputable def Box3.setFromObject (s : Scene) : Box3 :=
  s.meshes.foldl
    (fun b m => m.position.foldl
      (fun b2 v => Box3.expandByPoint b2 (Vector3.smul s.scale v)) b)
    none

/-- THREE.Box3.getSize (line 83): max - min, or the zero vector for the
empty box. -/
noncomputable def Box3.getSize (b : Box3) : Vector3 :=
  match b with
  | none => ⟨0, 0, 0⟩
  | some (mn, mx) => ⟨mx.x - mn.x, mx.y - mn.y, mx.z - mn.z⟩

/-- The JavaScript comparison a < b on index-array reads, where none models
the undefined produced by an out-of-range read: any comparison against
undefined is false. -/
def jsLt : Option ℕ → Option ℕ → Bool
  | some a, some b => a < b
  | _, _ => false

/-- The normalized edge key of line 130: v1 < v2 selects the key string
v1-v2, otherwise v2-v1.  Keys are modelled as ordered pairs; the string
rendering is injective on them. -/
def edgeKey (v1 v2 : Option ℕ) : Option ℕ × Option ℕ :=
  if jsLt v1 v2 then (v1, v2) else (v2, v1)

/-- The sequence of edge keys inserted into the edges map by the loop of
lines 127-133: i runs over 0, 3, 6, ... while i < idx.length, and each
step reads idx i, idx (i+1), idx (i+2) (undefined when out of range) and
emits the three normalized keys (a,b), (b,c), (c,a).  Recursion by chunks
of three is equivalent because position i + 3 of the list is position i of
its triple tail. -/
def edgeKeysOf : List ℕ → List (Option ℕ × Option ℕ)
  | [] => []
  | [a] =>
      [edgeKey (some a) none, edgeKey none none, edgeKey none (some a)]
  | [a, b] =>
      [edgeKey (some a) (some b), edgeKey (some b) none,
       edgeKey none (some a)]
  | a :: b :: c :: rest =>
      edgeKey (some a) (some b) :: edgeKey (some b) (some c) ::
        edgeKey (some c) (some a) :: edgeKeysOf rest

/-- The per-submesh watertightness of lines 134-139: the loop scans every
value of the edges map and falsifies the verdict when some value differs
from 2.  A map value is the number of occurrences of its key, so the
submesh passes iff every emitted key occurs exactly twice. -/
def meshWatertight (idx : List ℕ) : Bool :=
  (edgeKeysOf idx).all (fun e => (edgeKeysOf idx).count e == 2)

/-- The complete consecutive triples of a list: the triangles enumerated by
a loop stepping by 3 (any trailing partial triple dropped; see the header
note on NaN). -/
def triples {α : Type} : List α → List (α × α × α)
  | a :: b :: c :: rest => (a, b, c) :: triples rest
  | _ => []

/-- Vector3.fromBufferAttribute(pos, i) (lines 110-112): reads vertex i of
the position buffer.  Out-of-range reads, which produce NaN coordinates in
the source, are given a zero default; every concrete scene below keeps its
indices in range. -/
def vertexAt (pos : List Vector3) (i : ℕ) : Vector3 :=
  pos.getD i ⟨0, 0, 0⟩

/-- The signed tetrahedron volume term of line 114: v0 . (v1 x v2) / 6. -/
noncomputable def triVolume (v0 v1 v2 : Vector3) : ℝ :=
  Vector3.dot v0 (Vector3.cross v1 v2) / 6

/-- The surface-area term the source actually adds at line 118.  At line
114 the call v1.cross(v2) overwrote the register v1 with v1 x v2, so the
edge1 of line 116 is (v1 x v2) - v0, not v1 - v0. -/
noncomputable def triAreaCode (v0 v1 v2 : Vector3) : ℝ :=
  (Vector3.cross (Vector3.subVectors (Vector3.cross v1 v2) v0)
    (Vector3.subVectors v2 v0)).length / 2

/-- The surface-area term the specification states: the unsigned triangle
area |(v1 - v0) x (v2 - v0)| / 2.  Stated from the specification's words,
for comparison with triAreaCode. -/
noncomputable def triAreaSpec (v0 v1 v2 : Vector3) : ℝ :=
  (Vector3.cross (Vector3.subVectors v1 v0)
    (Vector3.subVectors v2 v0)).length / 2

/-- The body of the loop of lines 109-119 for one triangle: load the three
vertices, add the signed tetrahedron volume (the cross call storing v1 x v2
into the register v1), then add the area term computed from the mutated
register. -/
noncomputable def vaStep (pos : List Vector3) (acc : ℝ × ℝ)
    (t : ℕ × ℕ × ℕ) : ℝ × ℝ :=
  let v0 := vertexAt pos t.1
  let v1 := vertexAt pos t.2.1
  let v2 := vertexAt pos t.2.2
  let c := Vector3.cross v1 v2
  (acc.1 + Vector3.dot v0 c / 6,
   acc.2 + (Vector3.cross (Vector3.subVectors c v0)
     (Vector3.subVectors v2 v0)).length / 2)

/-- The loop of lines 109-119 for one indexed submesh: a single pass that
accumulates the signed mesh volume and the (global) surface area, triangle
by triangle. -/
noncomputable def volumeAreaLoop (pos : List Vector3) (idx : List ℕ) :
    ℝ × ℝ :=
  (triples idx).foldl (vaStep pos) (0, 0)

/-- The mutable accumulators of lines 75-80. -/
structure StatsAcc where
  triangles : ℚ
  vertices : ℕ
  meshCount : ℕ
  totalVolume : ℝ
  totalSurfaceArea : ℝ
  isWatertight : Bool

/-- One iteration of the traversal callback (lines 86-141) on a mesh
child: count it, add its triangle and vertex counts, run the volume/area
loop when an index buffer is present (adding the absolute value of the
signed mesh volume, line 121), and falsify the watertight flag when the
edge map of an indexed mesh has a value other than 2. -/
noncomputable def visitMesh (acc : StatsAcc) (m : Mesh) : StatsAcc :=
  let triangles := acc.triangles +
    (match m.index with
     | some idx => (idx.length : ℚ) / 3
     | none => (m.position.length : ℚ) / 3)
  let vertices := acc.vertices + m.position.length
  let meshCount := acc.meshCount + 1
  let va := match m.index with
    | some idx => volumeAreaLoop m.position idx
    | none => (0, 0)
  let totalVolume := acc.totalVolume + |va.1|
  let totalSurfaceArea := acc.totalSurfaceArea + va.2
  let isWatertight := match m.index with
    | some idx => acc.isWatertight && meshWatertight idx
    | none => acc.isWatertight
  ⟨triangles, vertices, meshCount, totalVolume, totalSurfaceArea,
    isWatertight⟩

/-- The result record of lines 27-37 and 144-158. -/
structure ModelStats where
  triangles : ℤ
  vertices : ℕ
  meshCount : ℕ
  dimensions : Vector3
  volume : ℝ
  surfaceArea : ℝ
  fileSize : ℕ
  isWatertight : Bool
  boundingBox : Box3

/-- calculateModelStats (lines 74-159): the bounding box and its size, one
traversal pass accumulating counts, volume, surface area and the
watertight flag, then the result record with presentation rounding. -/
noncomputable def calculateModelStats (scene : Scene) (fileSize : ℕ) :
    ModelStats :=
  let boundingBox := Box3.setFromObject scene
  let size := Box3.getSize boundingBox
  let acc := scene.meshes.foldl visitMesh ⟨0, 0, 0, 0, 0, true⟩
  { triangles := jsRoundQ acc.triangles
    vertices := acc.vertices
    meshCount := acc.meshCount
    dimensions := ⟨round2 size.x, round2 size.y, round2 size.z⟩
    volume := round3 acc.totalVolume
    surfaceArea := round2 acc.totalSurfaceArea
    fileSize := fileSize
    isWatertight := acc.isWatertight
    boundingBox := boundingBox }

/-- The triangle-count contribution of one submesh as the source
accumulates it (lines 90-94): index length over 3 when an index buffer is
present, else position length over 3, as an exact rational. -/
def meshTriQ (m : Mesh) : ℚ :=
  match m.index with
  | some idx => (idx.length : ℚ) / 3
  | none => (m.position.length : ℚ) / 3

/-- The triangle count of one submesh as an integer, defined for submeshes
whose relevant buffer length is a multiple of 3. -/
def meshTriNat (m : Mesh) : ℕ :=
  match m.index with
  | some idx => idx.length / 3
  | none => m.position.length / 3

/-- The signed volume of one submesh: the sum of the signed tetrahedron
terms over the triangles of its index buffer, and 0 for a submesh without
an index buffer (the source skips the loop entirely, line 103). -/
noncomputable def meshSignedVolume (m : Mesh) : ℝ :=
  match m.index with
  | some idx =>
      ((triples idx).map (fun t =>
        triVolume (vertexAt m.position t.1) (vertexAt m.position t.2.1)
          (vertexAt m.position t.2.2))).sum
  | none => 0

/-- The surface-area contribution of one submesh: the sum of the source's
area terms over the triangles of its index buffer, and 0 for a submesh
without an index buffer. -/
noncomputable def meshArea (m : Mesh) : ℝ :=
  match m.index with
  | some idx =>
      ((triples idx).map (fun t =>
        triAreaCode (vertexAt m.position t.1) (vertexAt m.position t.2.1)
          (vertexAt m.position t.2.2))).sum
  | none => 0

/-- Whether one submesh leaves the watertight flag intact: an indexed
submesh must pass the edge-incidence check; a submesh without an index
buffer is never examined (lines 124-140). -/
def meshOkB (m : Mesh) : Bool :=
  match m.index with
  | some idx => meshWatertight idx
  | none => true

/-- Data-model well-formedness of one submesh (specification section 3):
its index buffer, or its vertex buffer when used as a triangle soup, has
length divisible by 3. -/
def meshWfB (m : Mesh) : Bool :=
  match m.index with
  | some idx => idx.length % 3 == 0
  | none => m.position.length % 3 == 0

/-- Data-model well-formedness of a scene: every submesh is well formed. -/
def wfScene (s : Scene) : Bool :=
  s.meshes.all meshWfB

theorem vaStep_eq (pos : List Vector3) (acc : ℝ × ℝ) (t : ℕ × ℕ × ℕ) :
    vaStep pos acc t =
      (acc.1 + triVolume (vertexAt pos t.1) (vertexAt pos t.2.1)
         (vertexAt pos t.2.2),
       acc.2 + triAreaCode (vertexAt pos t.1) (vertexAt pos t.2.1)
         (vertexAt pos t.2.2)) := rfl

theorem foldl_vaStep (pos : List Vector3) (ts : List (ℕ × ℕ × ℕ)) :
    ∀ p : ℝ × ℝ,
      ts.foldl (vaStep pos) p =
        (p.1 + (ts.map (fun t =>
           triVolume (vertexAt pos t.1) (vertexAt pos t.2.1)
             (vertexAt pos t.2.2))).sum,
         p.2 + (ts.map (fun t =>
           triAreaCode (vertexAt pos t.1) (vertexAt pos t.2.1)
             (vertexAt pos t.2.2))).sum) := by
  induction ts with
  | nil => intro p; simp
  | cons t ts ih =>
      intro p
      simp only [List.foldl_cons, List.map_cons, List.sum_cons, ih,
        vaStep_eq]
      exact Prod.ext (by ring) (by ring)

theorem volumeAreaLoop_eq (pos : List Vector3) (idx : List ℕ) :
    volumeAreaLoop pos idx =
      ((((triples idx).map (fun t =>
          triVolume (vertexAt pos t.1) (vertexAt pos t.2.1)
            (vertexAt pos t.2.2))).sum : ℝ),
       (((triples idx).map (fun t =>
          triAreaCode (vertexAt pos t.1) (vertexAt pos t.2.1)
            (vertexAt pos t.2.2))).sum : ℝ)) := by
  rw [volumeAreaLoop, foldl_vaStep]
  simp

theorem visitMesh_eq (acc : StatsAcc) (m : Mesh) :
    visitMesh acc m =
      ⟨acc.triangles + meshTriQ m,
       acc.vertices + m.position.length,
       acc.meshCount + 1,
       acc.totalVolume + |meshSignedVolume m|,
       acc.totalSurfaceArea + meshArea m,
       acc.isWatertight && meshOkB m⟩ := by
  cases h : m.index with
  | none =>
      simp [visitMesh, meshTriQ, meshSignedVolume, meshArea, meshOkB, h]
  | some idx =>
      simp [visitMesh, meshTriQ, meshSignedVolume, meshArea, meshOkB, h,
        volumeAreaLoop_eq]

theorem foldl_visitMesh (ms : List Mesh) :
    ∀ acc : StatsAcc,
      ms.foldl visitMesh acc =
        ⟨acc.triangles + (ms.map meshTriQ).sum,
         acc.vertices + (ms.map (fun m => m.position.length)).sum,
         acc.meshCount + ms.length,
         acc.totalVolume + (ms.map (fun m => |meshSignedVolume m|)).sum,
         acc.totalSurfaceArea + (ms.map meshArea).sum,
         acc.isWatertight && ms.all meshOkB⟩ := by
  induction ms with
  | nil => intro acc; simp
  | cons m ms ih =>
      intro acc
      simp only [List.foldl_cons, visitMesh_eq, ih, List.map_cons,
        List.sum_cons, List.length_cons, List.all_cons, StatsAcc.mk.injEq]
      refine ⟨by ring, by omega, by omega, by ring, by ring, ?_⟩
      rw [Bool.and_assoc]

theorem stats_triangles (s : Scene) (fs : ℕ) :
    (calculateModelStats s fs).triangles =
      jsRoundQ ((s.meshes.map meshTriQ).sum) := by
  simp [calculateModelStats, foldl_visitMesh]

theorem stats_vertices (s : Scene) (fs : ℕ) :
    (calculateModelStats s fs).vertices =
      (s.meshes.map (fun m => m.position.length)).sum := by
  simp [calculateModelStats, foldl_visitMesh]

theorem stats_meshCount (s : Scene) (fs : ℕ) :
    (calculateModelStats s fs).meshCount = s.meshes.length := by
  simp [calculateModelStats, foldl_visitMesh]

theorem stats_volume (s : Scene) (fs : ℕ) :
    (calculateModelStats s fs).volume =
      round3 ((s.meshes.map (fun m => |meshSignedVolume m|)).sum) := by
  simp [calculateModelStats, foldl_visitMesh]

theorem stats_surfaceArea (s : Scene) (fs : ℕ) :
    (calculateModelStats s fs).surfaceArea =
      round2 ((s.meshes.map meshArea).sum) := by
  simp [calculateModelStats, foldl_visitMesh]

theorem stats_isWatertight (s : Scene) (fs : ℕ) :
    (calculateModelStats s fs).isWatertight = s.meshes.all meshOkB := by
  simp [calculateModelStats, foldl_visitMesh]

theorem meshOkB_iff (m : Mesh) :
    meshOkB m = true ↔
      ∀ idx, m.index = some idx → meshWatertight idx = true := by
  cases h : m.index with
  | none => simp [meshOkB, h]
  | some idx => simp [meshOkB, h]

theorem stats_boundingBox (s : Scene) (fs : ℕ) :
    (calculateModelStats s fs).boundingBox = Box3.setFromObject s := rfl

theorem stats_dimensions (s : Scene) (fs : ℕ) :
    (calculateModelStats s fs).dimensions =
      ⟨round2 (Box3.getSize (Box3.setFromObject s)).x,
       round2 (Box3.getSize (Box3.setFromObject s)).y,
       round2 (Box3.getSize (Box3.setFromObject s)).z⟩ := rfl

/-- A scene with no submeshes at all. -/
noncomputable def emptyScene : Scene := ⟨1, []⟩

/-- A scene made entirely of un-indexed triangle soup: one submesh with
three vertices and no index buffer. -/
noncomputable def soupScene : Scene :=
  ⟨1, [⟨[⟨0, 0, 0⟩, ⟨1, 0, 0⟩, ⟨0, 1, 0⟩], none⟩]⟩

/-- The eight corners of the axis-aligned unit cube. -/
noncomputable def cubeVerts : List Vector3 :=
  [⟨0, 0, 0⟩, ⟨1, 0, 0⟩, ⟨1, 1, 0⟩, ⟨0, 1, 0⟩,
   ⟨0, 0, 1⟩, ⟨1, 0, 1⟩, ⟨1, 1, 1⟩, ⟨0, 1, 1⟩]

/-- Twelve outward-wound triangles covering the unit cube. -/
def cubeIdx : List ℕ :=
  [0, 3, 2, 0, 2, 1, 4, 5, 6, 4, 6, 7, 0, 1, 5, 0, 5, 4,
   3, 6, 2, 3, 7, 6, 0, 4, 7, 0, 7, 3, 1, 2, 6, 1, 6, 5]

/-- The unit cube as a one-submesh indexed scene with identity root
transform. -/
noncomputable def cubeScene : Scene := ⟨1, [⟨cubeVerts, some cubeIdx⟩]⟩

/-- The unit cube with its top face removed: the same vertices, ten
triangles, boundary edges of incidence 1. -/
def openBoxIdx : List ℕ :=
  [0, 3, 2, 0, 2, 1, 0, 1, 5, 0, 5, 4,
   3, 6, 2, 3, 7, 6, 0, 4, 7, 0, 7, 3, 1, 2, 6, 1, 6, 5]

/-- The open box (cube minus one face) as a one-submesh indexed scene. -/
noncomputable def openBoxScene : Scene :=
  ⟨1, [⟨cubeVerts, some openBoxIdx⟩]⟩

/-- The cube connectivity with every vertex collapsed onto the origin:
identical index buffer, entirely different (degenerate) geometry. -/
noncomputable def cubeCollapsedScene : Scene :=
  ⟨1, [⟨[⟨0, 0, 0⟩, ⟨0, 0, 0⟩, ⟨0, 0, 0⟩, ⟨0, 0, 0⟩,
         ⟨0, 0, 0⟩, ⟨0, 0, 0⟩, ⟨0, 0, 0⟩, ⟨0, 0, 0⟩], some cubeIdx⟩]⟩

/-- One indexed right triangle with legs of length 2: vertices (0,0,0),
(2,0,0), (0,2,0). -/
noncomputable def triangleScene : Scene :=
  ⟨1, [⟨[⟨0, 0, 0⟩, ⟨2, 0, 0⟩, ⟨0, 2, 0⟩], some [0, 1, 2]⟩]⟩

/-- A scene whose single submesh has an index buffer of length 4, not a
multiple of 3. -/
noncomputable def badLengthScene : Scene :=
  ⟨1, [⟨[⟨0, 0, 0⟩, ⟨1, 0, 0⟩, ⟨0, 1, 0⟩, ⟨0, 0, 1⟩], some [0, 1, 2, 3]⟩]⟩

/-- C1.  Claimed: isWatertight is true only if at least one submesh
carries an index buffer (with every index-carrying submesh passing the
edge check); a scene of un-indexed soups, or with zero submeshes, is
reported not watertight.  The source initialises isWatertight to true and
only ever falsifies it while visiting an indexed submesh, so a scene with
zero submeshes and a scene made entirely of un-indexed triangle soups are
both reported watertight: the claim's conservative direction fails. -/
theorem C1_counterexample :
    (calculateModelStats emptyScene 0).isWatertight = true
  ∧ (calculateModelStats soupScene 0).isWatertight = true
  ∧ emptyScene.meshes.length = 0
  ∧ soupScene.meshes.all (fun m => m.index == none) = true := by
  exact ⟨by decide, by decide, rfl, by decide⟩

/-- C1 (amended).  The verdict isWatertight is true iff every submesh
that carries an index buffer has every edge key of its incidence map
referenced exactly twice; the condition is vacuous (and the verdict true)
when no submesh carries an index buffer, in particular for a zero-submesh
scene and for a scene made entirely of un-indexed triangle soups. -/
theorem C1_amended (s : Scene) (fs : ℕ) :
    (calculateModelStats s fs).isWatertight = true ↔
      ∀ m ∈ s.meshes, ∀ idx, m.index = some idx →
        meshWatertight idx = true := by
  rw [stats_isWatertight, List.all_eq_true]
  exact forall₂_congr fun m _ => meshOkB_iff m

/-- The per-mesh watertight contribution as a function of the index buffer
alone. -/
def indexOkB : Option (List ℕ) → Bool
  | some idx => meshWatertight idx
  | none => true

theorem meshOkB_eq_indexOkB (m : Mesh) : meshOkB m = indexOkB m.index := by
  cases h : m.index <;> simp [meshOkB, indexOkB, h]

/-- C10.  The watertightness verdict reads only the index buffers: two
scenes with the same sequence of optional index buffers, whatever their
vertex positions (or file sizes), receive the same isWatertight. -/
theorem C10_connectivity_only (s1 s2 : Scene) (fs1 fs2 : ℕ)
    (h : s1.meshes.map Mesh.index = s2.meshes.map Mesh.index) :
    (calculateModelStats s1 fs1).isWatertight =
      (calculateModelStats s2 fs2).isWatertight := by
  rw [stats_isWatertight, stats_isWatertight]
  have e : ∀ ms : List Mesh,
      ms.all meshOkB = (ms.map Mesh.index).all indexOkB := by
    intro ms
    induction ms with
    | nil => rfl
    | cons m ms ih => simp [List.all_cons, ih, meshOkB_eq_indexOkB]
  rw [e, e, h]

/-- C10 witness: the unit cube versus the same connectivity with every
vertex collapsed to the origin. -/
theorem C10_witness :
    cubeScene.meshes.map Mesh.index =
      cubeCollapsedScene.meshes.map Mesh.index
  ∧ (calculateModelStats cubeScene 0).isWatertight =
      (calculateModelStats cubeCollapsedScene 0).isWatertight :=
  ⟨rfl, C10_connectivity_only cubeScene cubeCollapsedScene 0 0 rfl⟩

/-- C4.  Claimed: a submesh with an index-buffer (or soup) length not
divisible by 3 makes the analysis report a structural error rather than
silently produce a count.  The source has no error channel at all: on an
index buffer of length 4 it silently produces the rounded count
Math.round (4 / 3) = 1. -/
theorem C4_counterexample :
    (calculateModelStats badLengthScene 0).triangles = 1
  ∧ ¬ 3 ∣ ([0, 1, 2, 3] : List ℕ).length := by
  constructor
  · rw [stats_triangles]
    norm_num [badLengthScene, meshTriQ, jsRoundQ]
  · decide

/-- C4 (amended).  The analysis never reports a structural error: every
scene, divisible buffer lengths or not, yields a fully populated result
whose triangle count is Math.round of the accumulated (possibly
fractional) sum of per-submesh length / 3 terms. -/
theorem C4_amended (s : Scene) (fs : ℕ) :
    (calculateModelStats s fs).triangles =
      jsRoundQ ((s.meshes.map meshTriQ).sum) :=
  stats_triangles s fs

theorem meshTriQ_eq_nat (m : Mesh) (h : meshWfB m = true) :
    meshTriQ m = (meshTriNat m : ℚ) := by
  cases hi : m.index with
  | some idx =>
      rw [meshWfB, hi] at h
      have h3 : 3 ∣ idx.length :=
        Nat.dvd_of_mod_eq_zero (by simpa using h)
      simp only [meshTriQ, meshTriNat, hi]
      rw [Nat.cast_div h3 (by norm_num)]
      norm_num
  | none =>
      rw [meshWfB, hi] at h
      have h3 : 3 ∣ m.position.length :=
        Nat.dvd_of_mod_eq_zero (by simpa using h)
      simp only [meshTriQ, meshTriNat, hi]
      rw [Nat.cast_div h3 (by norm_num)]
      norm_num

theorem sum_meshTriQ (ms : List Mesh) (h : ms.all meshWfB = true) :
    (ms.map meshTriQ).sum = ((ms.map meshTriNat).sum : ℚ) := by
  induction ms with
  | nil => simp
  | cons m ms ih =>
      rw [List.all_cons, Bool.and_eq_true] at h
      rw [List.map_cons, List.sum_cons, List.map_cons, List.sum_cons,
        meshTriQ_eq_nat m h.1, ih h.2, Nat.cast_add]

theorem jsRoundQ_natCast (n : ℕ) : jsRoundQ (n : ℚ) = n := by
  rw [jsRoundQ]
  rw [Int.floor_eq_iff]
  constructor
  · push_cast
    linarith
  · push_cast
    linarith

/-- C8.  For a well-formed scene (all buffer lengths divisible by 3), the
result reports meshCount = number of submeshes, vertices = sum of vertex
buffer lengths, and triangles = the sum over submeshes of indexLength / 3
when indexed, else positionLength / 3. -/
theorem C8_topology (s : Scene) (fs : ℕ) (h : wfScene s = true) :
    (calculateModelStats s fs).meshCount = s.meshes.length
  ∧ (calculateModelStats s fs).vertices =
      (s.meshes.map (fun m => m.position.length)).sum
  ∧ (calculateModelStats s fs).triangles =
      ((s.meshes.map meshTriNat).sum : ℤ) := by
  refine ⟨stats_meshCount s fs, stats_vertices s fs, ?_⟩
  rw [stats_triangles, sum_meshTriQ s.meshes h, jsRoundQ_natCast]

/-- C8 witness: the unit cube scene. -/
theorem C8_witness :
    wfScene cubeScene = true
  ∧ ((calculateModelStats cubeScene 0).meshCount =
        cubeScene.meshes.length
    ∧ (calculateModelStats cubeScene 0).vertices =
        (cubeScene.meshes.map (fun m => m.position.length)).sum
    ∧ (calculateModelStats cubeScene 0).triangles =
        ((cubeScene.meshes.map meshTriNat).sum : ℤ)) :=
  ⟨by decide, C8_topology cubeScene 0 (by decide)⟩

theorem jsRoundR_nonneg (x : ℝ) (h : 0 ≤ x) : 0 ≤ jsRoundR x := by
  rw [jsRoundR, Int.floor_nonneg]
  linarith

theorem round2_nonneg (x : ℝ) (h : 0 ≤ x) : 0 ≤ round2 x := by
  rw [round2]
  have := jsRoundR_nonneg (x * 100) (by linarith)
  have c : (0 : ℝ) ≤ (jsRoundR (x * 100) : ℝ) := by exact_mod_cast this
  linarith

theorem round3_nonneg (x : ℝ) (h : 0 ≤ x) : 0 ≤ round3 x := by
  rw [round3]
  have := jsRoundR_nonneg (x * 1000) (by linarith)
  have c : (0 : ℝ) ≤ (jsRoundR (x * 1000) : ℝ) := by exact_mod_cast this
  linarith

theorem triAreaCode_nonneg (v0 v1 v2 : Vector3) :
    0 ≤ triAreaCode v0 v1 v2 := by
  rw [triAreaCode]
  have := Real.sqrt_nonneg
    (((Vector3.cross (Vector3.subVectors (Vector3.cross v1 v2) v0)
      (Vector3.subVectors v2 v0)).x) ^ 2 +
     ((Vector3.cross (Vector3.subVectors (Vector3.cross v1 v2) v0)
      (Vector3.subVectors v2 v0)).y) ^ 2 +
     ((Vector3.cross (Vector3.subVectors (Vector3.cross v1 v2) v0)
      (Vector3.subVectors v2 v0)).z) ^ 2)
  rw [Vector3.length]
  linarith

theorem meshArea_nonneg (m : Mesh) : 0 ≤ meshArea m := by
  cases h : m.index with
  | none => rw [meshArea, h]
  | some idx =>
      rw [meshArea, h]
      apply List.sum_nonneg
      intro x hx
      rw [List.mem_map] at hx
      obtain ⟨t, _, rfl⟩ := hx
      exact triAreaCode_nonneg _ _ _

theorem stats_volume_nonneg (s : Scene) (fs : ℕ) :
    0 ≤ (calculateModelStats s fs).volume := by
  rw [stats_volume]
  apply round3_nonneg
  apply List.sum_nonneg
  intro x hx
  rw [List.mem_map] at hx
  obtain ⟨m, _, rfl⟩ := hx
  exact abs_nonneg _

theorem stats_surfaceArea_nonneg (s : Scene) (fs : ℕ) :
    0 ≤ (calculateModelStats s fs).surfaceArea := by
  rw [stats_surfaceArea]
  apply round2_nonneg
  apply List.sum_nonneg
  intro x hx
  rw [List.mem_map] at hx
  obtain ⟨m, _, rfl⟩ := hx
  exact meshArea_nonneg m

/-- C7.  For every well-formed scene the reported volume and surface area
are non-negative: the volume accumulates absolute values of per-submesh
signed sums, the surface area accumulates norms, and the final rounding
preserves non-negativity. -/
theorem C7_nonneg (s : Scene) (fs : ℕ) (h : wfScene s = true) :
    0 ≤ (calculateModelStats s fs).volume
  ∧ 0 ≤ (calculateModelStats s fs).surfaceArea :=
  ⟨stats_volume_nonneg s fs, stats_surfaceArea_nonneg s fs⟩

/-- C7 witness: the unit cube scene. -/
theorem C7_witness :
    wfScene cubeScene = true
  ∧ (0 ≤ (calculateModelStats cubeScene 0).volume
    ∧ 0 ≤ (calculateModelStats cubeScene 0).surfaceArea) :=
  ⟨by decide, C7_nonneg cubeScene 0 (by decide)⟩

/-- C6.  For every well-formed scene the reported volume is the rounding
of the sum, over submeshes, of the absolute value of that submesh's signed
tetrahedron sum (terms v0 . (v1 x v2) / 6 over its index triangles), and
the reported surface area is the rounding of the per-submesh area sums;
submeshes without an index buffer contribute exactly 0 to both. -/
theorem C6_volume_area (s : Scene) (fs : ℕ) (h : wfScene s = true) :
    (calculateModelStats s fs).volume =
      round3 ((s.meshes.map (fun m => |meshSignedVolume m|)).sum)
  ∧ (calculateModelStats s fs).surfaceArea =
      round2 ((s.meshes.map meshArea).sum)
  ∧ ∀ m ∈ s.meshes, m.index = none →
      meshSignedVolume m = 0 ∧ meshArea m = 0 := by
  refine ⟨stats_volume s fs, stats_surfaceArea s fs, ?_⟩
  intro m _ hm
  exact ⟨by rw [meshSignedVolume, hm], by rw [meshArea, hm]⟩

/-- C2.  Claimed: each triangle of an indexed submesh adds exactly
the unsigned triangle area to the total, making a unit cube report a
surface area of 6.0.  In the source, the volume line v1.cross(v2) has
already overwritten the register v1 with v1 x v2 when edge1 is formed, so
the added term is the norm of ((v1 x v2) - v0) x (v2 - v0) over 2.  On
the single triangle (0,0,0), (2,0,0), (0,2,0) the source adds 4 where the
claimed formula gives 2, and the reported surfaceArea is 4, not 2. -/
theorem C2_code_bug :
    (calculateModelStats triangleScene 0).surfaceArea = 4
  ∧ triAreaSpec ⟨0, 0, 0⟩ ⟨2, 0, 0⟩ ⟨0, 2, 0⟩ = 2
  ∧ (4 : ℝ) ≠ 2 := by
  refine ⟨?_, ?_, by norm_num⟩
  · rw [stats_surfaceArea]
    have e4 : (triangleScene.meshes.map meshArea).sum = 4 := by
      simp [triangleScene, meshArea, triples, vertexAt, triAreaCode,
        Vector3.cross, Vector3.subVectors, Vector3.length]
      norm_num
    rw [e4, round2]
    norm_num [jsRoundR]
  · simp [triAreaSpec, Vector3.cross, Vector3.subVectors, Vector3.length]

/-- Scaling a box: both corners scaled componentwise. -/
noncomputable def Box3.scaleBox (k : ℝ) : Box3 → Box3
  | none => none
  | some (mn, mx) => some (Vector3.smul k mn, Vector3.smul k mx)

theorem expandByPoint_smul (k : ℝ) (hk : 0 ≤ k) (b : Box3) (p : Vector3) :
    Box3.expandByPoint (Box3.scaleBox k b) (Vector3.smul k p) =
      Box3.scaleBox k (Box3.expandByPoint b p) := by
  cases b with
  | none => rfl
  | some mm =>
      obtain ⟨mn, mx⟩ := mm
      simp [Box3.expandByPoint, Box3.scaleBox, Vector3.smul,
        mul_min_of_nonneg _ _ hk, mul_max_of_nonneg _ _ hk]

theorem foldl_expand_smul (k : ℝ) (hk : 0 ≤ k) (c : ℝ)
    (vs : List Vector3) :
    ∀ b : Box3,
      vs.foldl
        (fun b2 v => Box3.expandByPoint b2 (Vector3.smul (k * c) v))
        (Box3.scaleBox k b) =
      Box3.scaleBox k
        (vs.foldl
          (fun b2 v => Box3.expandByPoint b2 (Vector3.smul c v)) b) := by
  induction vs with
  | nil => intro b; rfl
  | cons v vs ih =>
      intro b
      rw [List.foldl_cons, List.foldl_cons,
        show Vector3.smul (k * c) v = Vector3.smul k (Vector3.smul c v) by
          simp [Vector3.smul, mul_assoc],
        expandByPoint_smul k hk]
      exact ih _

theorem meshes_fold_scale (k : ℝ) (hk : 0 ≤ k) (c : ℝ) (ms : List Mesh) :
    ∀ b : Box3,
      ms.foldl
        (fun bb m => m.position.foldl
          (fun b2 v => Box3.expandByPoint b2 (Vector3.smul (k * c) v)) bb)
        (Box3.scaleBox k b) =
      Box3.scaleBox k
        (ms.foldl
          (fun bb m => m.position.foldl
            (fun b2 v => Box3.expandByPoint b2 (Vector3.smul c v)) bb)
          b) := by
  induction ms with
  | nil => intro b; rfl
  | cons m ms ih =>
      intro b
      rw [List.foldl_cons, List.foldl_cons,
        foldl_expand_smul k hk c m.position b]
      exact ih _

theorem setFromObject_scale (k : ℝ) (hk : 0 ≤ k) (s : Scene) :
    Box3.setFromObject (scaleScene k s) =
      Box3.scaleBox k (Box3.setFromObject s) := by
  have := meshes_fold_scale k hk s.scale s.meshes none
  simpa [Box3.setFromObject, scaleScene, Box3.scaleBox] using this

theorem getSize_scaleBox (k : ℝ) (b : Box3) :
    Box3.getSize (Box3.scaleBox k b) = Vector3.smul k (Box3.getSize b) := by
  cases b with
  | none => simp [Box3.scaleBox, Box3.getSize, Vector3.smul]
  | some mm =>
      obtain ⟨mn, mx⟩ := mm
      simp [Box3.scaleBox, Box3.getSize, Vector3.smul, mul_sub]

/-- C3.  Claimed: uniformly scaling the scene's transform by s leaves
counts and the verdict unchanged and scales dimensions by s, surfaceArea
by s squared and volume by s cubed.  The source computes volume and
surface area from the raw local position buffers, never applying the
world transform, while the bounding box does apply it: on the unit cube
scaled by 2, the reported volume stays 1 instead of becoming 8. -/
theorem C3_counterexample :
    (calculateModelStats (scaleScene 2 cubeScene) 0).volume =
      (calculateModelStats cubeScene 0).volume
  ∧ (calculateModelStats cubeScene 0).volume = 1
  ∧ ((2 : ℝ) ^ 3 * 1 : ℝ) ≠ 1 := by
  refine ⟨rfl, ?_, by norm_num⟩
  rw [stats_volume]
  have e1 : (cubeScene.meshes.map (fun m => |meshSignedVolume m|)).sum
      = 1 := by
    simp [cubeScene, meshSignedVolume, cubeIdx, cubeVerts, triples,
      vertexAt, triVolume, Vector3.dot, Vector3.cross]
    norm_num
  rw [e1, round3]
  norm_num [jsRoundR]

/-- C3 (amended).  Uniformly scaling the scene's transform by k > 0
leaves the triangle, vertex and mesh counts, the watertightness verdict,
the reported volume AND the reported surface area unchanged (volume and
area are computed from untransformed local buffers), while the unrounded
bounding-box size scales by k (so the reported dimensions are the
two-decimal rounding of k times the unscaled size). -/
theorem C3_amended (s : Scene) (fs : ℕ) (k : ℝ) (hk : 0 < k) :
    (calculateModelStats (scaleScene k s) fs).triangles =
      (calculateModelStats s fs).triangles
  ∧ (calculateModelStats (scaleScene k s) fs).vertices =
      (calculateModelStats s fs).vertices
  ∧ (calculateModelStats (scaleScene k s) fs).meshCount =
      (calculateModelStats s fs).meshCount
  ∧ (calculateModelStats (scaleScene k s) fs).isWatertight =
      (calculateModelStats s fs).isWatertight
  ∧ (calculateModelStats (scaleScene k s) fs).volume =
      (calculateModelStats s fs).volume
  ∧ (calculateModelStats (scaleScene k s) fs).surfaceArea =
      (calculateModelStats s fs).surfaceArea
  ∧ Box3.getSize (Box3.setFromObject (scaleScene k s)) =
      Vector3.smul k (Box3.getSize (Box3.setFromObject s)) := by
  refine ⟨rfl, rfl, rfl, rfl, rfl, rfl, ?_⟩
  rw [setFromObject_scale k (le_of_lt hk) s, getSize_scaleBox]

/-- C3 witness: the unit cube scaled by 2. -/
theorem C3_witness :
    (0 : ℝ) < 2
  ∧ ((calculateModelStats (scaleScene 2 cubeScene) 0).triangles =
        (calculateModelStats cubeScene 0).triangles
    ∧ (calculateModelStats (scaleScene 2 cubeScene) 0).vertices =
        (calculateModelStats cubeScene 0).vertices
    ∧ (calculateModelStats (scaleScene 2 cubeScene) 0).meshCount =
        (calculateModelStats cubeScene 0).meshCount
    ∧ (calculateModelStats (scaleScene 2 cubeScene) 0).isWatertight =
        (calculateModelStats cubeScene 0).isWatertight
    ∧ (calculateModelStats (scaleScene 2 cubeScene) 0).volume =
        (calculateModelStats cubeScene 0).volume
    ∧ (calculateModelStats (scaleScene 2 cubeScene) 0).surfaceArea =
        (calculateModelStats cubeScene 0).surfaceArea
    ∧ Box3.getSize (Box3.setFromObject (scaleScene 2 cubeScene)) =
        Vector3.smul 2 (Box3.getSize (Box3.setFromObject cubeScene))) :=
  ⟨two_pos, C3_amended cubeScene 0 2 two_pos⟩

/-- C6 witness: the unit cube scene. -/
theorem C6_witness :
    wfScene cubeScene = true
  ∧ ((calculateModelStats cubeScene 0).volume =
      round3 ((cubeScene.meshes.map (fun m => |meshSignedVolume m|)).sum)
    ∧ (calculateModelStats cubeScene 0).surfaceArea =
      round2 ((cubeScene.meshes.map meshArea).sum)
    ∧ ∀ m ∈ cubeScene.meshes, m.index = none →
        meshSignedVolume m = 0 ∧ meshArea m = 0) :=
  ⟨by decide, C6_volume_area cubeScene 0 (by decide)⟩

/-- The specification's normalized undirected edge key: the smaller
vertex index first. -/
def specEdgeKey (a b : ℕ) : ℕ × ℕ := if a < b then (a, b) else (b, a)

/-- The specification's edge enumeration of an index buffer: for each
triangle (a, b, c), the three normalized undirected edges (a,b), (b,c),
(c,a).  The incidence count of an edge is its occurrence count in this
list. -/
def specEdges (idx : List ℕ) : List (ℕ × ℕ) :=
  (triples idx).flatMap (fun t =>
    [specEdgeKey t.1 t.2.1, specEdgeKey t.2.1 t.2.2,
     specEdgeKey t.2.2 t.1])

/-- Injection of a genuine edge into the key space of the source's edge
map (both components defined). -/
def liftEdge (e : ℕ × ℕ) : Option ℕ × Option ℕ := (some e.1, some e.2)

theorem edgeKey_some (a b : ℕ) :
    edgeKey (some a) (some b) = liftEdge (specEdgeKey a b) := by
  by_cases hab : a < b <;>
    simp [edgeKey, jsLt, specEdgeKey, liftEdge, hab]

theorem edgeKeysOf_wf : ∀ idx : List ℕ, 3 ∣ idx.length →
    edgeKeysOf idx = (specEdges idx).map liftEdge
  | [], _ => rfl
  | [a], h => by simp at h
  | [a, b], h => by
      have h2 : (3 : ℕ) ∣ 2 := by simpa using h
      exact absurd h2 (by decide)
  | a :: b :: c :: rest, h => by
      have h3 : 3 ∣ rest.length := by
        have h' := h
        simp only [List.length_cons] at h'
        omega
      simp only [edgeKeysOf, specEdges, triples, List.flatMap_cons,
        List.map_append, List.map_cons, List.map_nil, List.cons_append,
        List.nil_append, edgeKey_some, edgeKeysOf_wf rest h3]

theorem count_map_liftEdge (l : List (ℕ × ℕ)) (e : ℕ × ℕ) :
    (l.map liftEdge).count (liftEdge e) = l.count e := by
  induction l with
  | nil => rfl
  | cons a l ih =>
      rw [List.map_cons, List.count_cons, List.count_cons, ih]
      have hbeq : (liftEdge a == liftEdge e) = (a == e) := rfl
      rw [hbeq]

/-- C5.  For every index buffer of well-formed length, the source's
edge-map verdict holds iff every normalized undirected edge (smaller
index first, three edges per triangle) has incidence count exactly 2;
and the open box (cube with one face removed) is reported not watertight
while its volume and surface area still compute, as non-negative reals,
without error. -/
theorem C5_manifold (idx : List ℕ) (h : 3 ∣ idx.length) :
    (meshWatertight idx = true ↔
      ∀ e ∈ specEdges idx, (specEdges idx).count e = 2)
  ∧ (calculateModelStats openBoxScene 0).isWatertight = false
  ∧ 0 ≤ (calculateModelStats openBoxScene 0).volume
  ∧ 0 ≤ (calculateModelStats openBoxScene 0).surfaceArea := by
  refine ⟨?_, by decide, stats_volume_nonneg openBoxScene 0,
    stats_surfaceArea_nonneg openBoxScene 0⟩
  rw [meshWatertight, edgeKeysOf_wf idx h, List.all_eq_true]
  constructor
  · intro H e he
    have h2 := H (liftEdge e) (List.mem_map_of_mem liftEdge he)
    rw [count_map_liftEdge] at h2
    simpa using h2
  · intro H x hx
    rw [List.mem_map] at hx
    obtain ⟨e, he, rfl⟩ := hx
    rw [show ((((specEdges idx).map liftEdge).count (liftEdge e) == 2)
        = true) ↔ ((specEdges idx).count e = 2) by
      rw [count_map_liftEdge]; exact beq_iff_eq]
    exact H e he

/-- C5 witness: the open-box index buffer (length 30). -/
theorem C5_witness :
    3 ∣ openBoxIdx.length
  ∧ ((meshWatertight openBoxIdx = true ↔
        ∀ e ∈ specEdges openBoxIdx, (specEdges openBoxIdx).count e = 2)
    ∧ (calculateModelStats openBoxScene 0).isWatertight = false
    ∧ 0 ≤ (calculateModelStats openBoxScene 0).volume
    ∧ 0 ≤ (calculateModelStats openBoxScene 0).surfaceArea) :=
  ⟨by decide, C5_manifold openBoxIdx (by decide)⟩

/-- Explicit-state view of the engine, for the frame claim: the scene
being read together with every mutable location the source writes during
the traversal: the three Vector3 registers of the volume loop (v0, v1,
v2), the per-mesh signed-volume register, and the traversal accumulators.
Every three.js call in the loop writes one of these registers
(fromBufferAttribute writes its receiver register; v1.cross(v2) writes
v1); none writes the scene's buffers. -/
structure EngineState where
  scene : Scene
  v0 : Vector3
  v1 : Vector3
  v2 : Vector3
  meshVolume : ℝ
  triangles : ℚ
  vertices : ℕ
  meshCount : ℕ
  totalVolume : ℝ
  totalSurfaceArea : ℝ
  isWatertight : Bool

/-- Lines 110-118 as state updates, one triangle at a time: three loads
into the registers v0, v1, v2 (reading the position buffer), the cross
call overwriting v1, the volume accumulation, and the area accumulation
from the mutated v1. -/
noncomputable def triangleStepSt (pos : List Vector3) (t : ℕ × ℕ × ℕ)
    (st : EngineState) : EngineState :=
  let st1 := { st with v0 := vertexAt pos t.1 }
  let st2 := { st1 with v1 := vertexAt pos t.2.1 }
  let st3 := { st2 with v2 := vertexAt pos t.2.2 }
  let st4 := { st3 with v1 := Vector3.cross st3.v1 st3.v2 }
  let st5 := { st4 with
    meshVolume := st4.meshVolume + Vector3.dot st4.v0 st4.v1 / 6 }
  let edge1 := Vector3.subVectors st5.v1 st5.v0
  let edge2 := Vector3.subVectors st5.v2 st5.v0
  { st5 with totalSurfaceArea :=
      st5.totalSurfaceArea + (Vector3.cross edge1 edge2).length / 2 }

theorem triangleStepSt_eq (pos : List Vector3) (t : ℕ × ℕ × ℕ)
    (st : EngineState) :
    triangleStepSt pos t st =
      { st with
        v0 := vertexAt pos t.1
        v1 := Vector3.cross (vertexAt pos t.2.1) (vertexAt pos t.2.2)
        v2 := vertexAt pos t.2.2
        meshVolume := st.meshVolume +
          triVolume (vertexAt pos t.1) (vertexAt pos t.2.1)
            (vertexAt pos t.2.2)
        totalSurfaceArea := st.totalSurfaceArea +
          triAreaCode (vertexAt pos t.1) (vertexAt pos t.2.1)
            (vertexAt pos t.2.2) } := rfl

/-- The same step with the argument order of a left fold. -/
noncomputable def triangleStepFlip (pos : List Vector3) (st : EngineState)
    (t : ℕ × ℕ × ℕ) : EngineState :=
  triangleStepSt pos t st

theorem triangleStepFlip_eq (pos : List Vector3) (st : EngineState)
    (t : ℕ × ℕ × ℕ) :
    triangleStepFlip pos st t =
      { st with
        v0 := vertexAt pos t.1
        v1 := Vector3.cross (vertexAt pos t.2.1) (vertexAt pos t.2.2)
        v2 := vertexAt pos t.2.2
        meshVolume := st.meshVolume +
          triVolume (vertexAt pos t.1) (vertexAt pos t.2.1)
            (vertexAt pos t.2.2)
        totalSurfaceArea := st.totalSurfaceArea +
          triAreaCode (vertexAt pos t.1) (vertexAt pos t.2.1)
            (vertexAt pos t.2.2) } := rfl

theorem foldl_triangleStepSt (pos : List Vector3)
    (ts : List (ℕ × ℕ × ℕ)) :
    ∀ st : EngineState,
      (ts.foldl (triangleStepFlip pos) st).scene = st.scene
    ∧ (ts.foldl (triangleStepFlip pos) st).meshVolume =
        st.meshVolume + (ts.map (fun t =>
          triVolume (vertexAt pos t.1) (vertexAt pos t.2.1)
            (vertexAt pos t.2.2))).sum
    ∧ (ts.foldl (triangleStepFlip pos) st).totalSurfaceArea =
        st.totalSurfaceArea + (ts.map (fun t =>
          triAreaCode (vertexAt pos t.1) (vertexAt pos t.2.1)
            (vertexAt pos t.2.2))).sum
    ∧ (ts.foldl (triangleStepFlip pos) st).triangles = st.triangles
    ∧ (ts.foldl (triangleStepFlip pos) st).vertices = st.vertices
    ∧ (ts.foldl (triangleStepFlip pos) st).meshCount = st.meshCount
    ∧ (ts.foldl (triangleStepFlip pos) st).totalVolume = st.totalVolume
    ∧ (ts.foldl (triangleStepFlip pos) st).isWatertight =
        st.isWatertight := by
  induction ts with
  | nil => intro st; simp
  | cons t ts ih =>
      intro st
      obtain ⟨e1, e2, e3, e4, e5, e6, e7, e8⟩ :=
        ih (triangleStepFlip pos st t)
      simp only [List.foldl_cons, List.map_cons, List.sum_cons,
        triangleStepFlip_eq]
      simp only [triangleStepFlip_eq] at e1 e2 e3 e4 e5 e6 e7 e8
      refine ⟨by simpa using e1, ?_, ?_, by simpa using e4,
        by simpa using e5, by simpa using e6, by simpa using e7,
        by simpa using e8⟩
      · rw [e2]
        simp [add_assoc]
      · rw [e3]
        simp [add_assoc]

/-- The per-mesh accumulators of the explicit-state run, projected onto
the accumulator record of the pure embedding. -/
def projAcc (st : EngineState) : StatsAcc :=
  ⟨st.triangles, st.vertices, st.meshCount, st.totalVolume,
   st.totalSurfaceArea, st.isWatertight⟩

/-- The traversal callback (lines 86-141) as a state transformer: the
mesh is READ from the scene component of the state at its child index;
all writes target accumulators and registers. -/
noncomputable def visitMeshSt (st : EngineState) (mi : ℕ) : EngineState :=
  match st.scene.meshes[mi]? with
  | none => st
  | some m =>
    let st1 := { st with meshCount := st.meshCount + 1 }
    let st2 := { st1 with triangles := st1.triangles + meshTriQ m }
    let st3 := { st2 with vertices := st2.vertices + m.position.length }
    let st4 :=
      match m.index with
      | some idx =>
          let stV := { st3 with meshVolume := 0 }
          let stL := (triples idx).foldl (triangleStepFlip m.position) stV
          { stL with totalVolume := stL.totalVolume + |stL.meshVolume| }
      | none => st3
    match m.index with
    | some idx =>
        { st4 with isWatertight := st4.isWatertight && meshWatertight idx }
    | none => st4

theorem visitMeshSt_eq (st : EngineState) (mi : ℕ) :
    (visitMeshSt st mi).scene = st.scene
  ∧ projAcc (visitMeshSt st mi) =
      (match st.scene.meshes[mi]? with
       | some m => visitMesh (projAcc st) m
       | none => projAcc st) := by
  cases hg : st.scene.meshes[mi]? with
  | none => simp [visitMeshSt, hg]
  | some m =>
      cases hi : m.index with
      | none =>
          constructor
          · simp [visitMeshSt, hg, hi]
          · simp [visitMeshSt, hg, hi, visitMesh_eq, projAcc,
              meshSignedVolume, meshArea, meshOkB]
      | some idx =>
          have hfold := foldl_triangleStepSt m.position (triples idx)
          constructor
          · simp only [visitMeshSt, hg, hi]
            exact (hfold _).1
          · obtain ⟨e1, e2, e3, e4, e5, e6, e7, e8⟩ := hfold
              { st with
                meshCount := st.meshCount + 1
                triangles := st.triangles + meshTriQ m
                vertices := st.vertices + m.position.length
                meshVolume := 0 }
            simp only [visitMeshSt, hg, hi, visitMesh_eq, projAcc]
            simp only [StatsAcc.mk.injEq]
            refine ⟨?_, ?_, ?_, ?_, ?_, ?_⟩ <;>
              simp [e2, e3, e4, e5, e6, e7, e8, meshSignedVolume,
                meshArea, meshOkB, hi]

theorem foldl_visitMeshSt_scene (l : List ℕ) :
    ∀ st : EngineState, (l.foldl visitMeshSt st).scene = st.scene := by
  induction l with
  | nil => intro st; rfl
  | cons i l ih =>
      intro st
      rw [List.foldl_cons, ih, (visitMeshSt_eq st i).1]

/-- The initial engine state of lines 75-80 (all accumulators zeroed, the
watertight flag true, the registers fresh zero vectors). -/
noncomputable def initState (scene : Scene) : EngineState :=
  ⟨scene, ⟨0, 0, 0⟩, ⟨0, 0, 0⟩, ⟨0, 0, 0⟩, 0, 0, 0, 0, 0, 0, true⟩

/-- The scene.traverse call of lines 85-142 as an index-driven fold of
the state transformer over the mesh children. -/
noncomputable def runTraversal (scene : Scene) : EngineState :=
  (List.range scene.meshes.length).foldl visitMeshSt (initState scene)

/-- calculateModelStats in explicit-state form: it returns the result
record together with the scene component of the final state, so that
preservation of the scene is a stated fact rather than a convention. -/
noncomputable def calculateModelStatsSt (scene : Scene) (fileSize : ℕ) :
    ModelStats × Scene :=
  let stF := runTraversal scene
  let boundingBox := Box3.setFromObject stF.scene
  let size := Box3.getSize boundingBox
  ({ triangles := jsRoundQ stF.triangles
     vertices := stF.vertices
     meshCount := stF.meshCount
     dimensions := ⟨round2 size.x, round2 size.y, round2 size.z⟩
     volume := round3 stF.totalVolume
     surfaceArea := round2 stF.totalSurfaceArea
     fileSize := fileSize
     isWatertight := stF.isWatertight
     boundingBox := boundingBox }, stF.scene)

theorem run_agree (scene : Scene) :
    ∀ n : ℕ, ∀ st : EngineState, st.scene = scene →
      projAcc ((List.range n).foldl visitMeshSt st) =
        (scene.meshes.take n).foldl visitMesh (projAcc st) := by
  intro n
  induction n with
  | zero => intro st h; simp
  | succ n ih =>
      intro st h
      rw [List.range_succ, List.foldl_append, List.foldl_cons,
        List.foldl_nil]
      have hv := visitMeshSt_eq ((List.range n).foldl visitMeshSt st) n
      have hscene : ((List.range n).foldl visitMeshSt st).scene = scene :=
        (foldl_visitMeshSt_scene _ st).trans h
      rw [hv.2, hscene, ih st h]
      cases hg : scene.meshes[n]? with
      | some m =>
          rw [List.take_succ, hg]
          simp
      | none =>
          rw [List.take_succ, hg]
          simp

/-- C9.  Running the analysis does not mutate the scene: in the
explicit-state embedding, in which every write of the source targets a
register or an accumulator, the scene component of the final state is the
input scene unchanged, and the produced record is exactly the one the
pure function returns. -/
theorem C9_no_mutation (scene : Scene) (fs : ℕ) :
    (calculateModelStatsSt scene fs).2 = scene
  ∧ (calculateModelStatsSt scene fs).1 = calculateModelStats scene fs := by
  have hsc : (runTraversal scene).scene = scene :=
    foldl_visitMeshSt_scene _ (initState scene)
  have hacc : projAcc (runTraversal scene) =
      scene.meshes.foldl visitMesh ⟨0, 0, 0, 0, 0, true⟩ := by
    have h := run_agree scene scene.meshes.length (initState scene) rfl
    simpa [List.take_length, projAcc, initState, runTraversal] using h
  constructor
  · exact hsc
  · have ht := congrArg StatsAcc.triangles hacc
    have hve := congrArg StatsAcc.vertices hacc
    have hmc := congrArg StatsAcc.meshCount hacc
    have htv := congrArg StatsAcc.totalVolume hacc
    have hsa := congrArg StatsAcc.totalSurfaceArea hacc
    have hw := congrArg StatsAcc.isWatertight hacc
    simp only [projAcc] at ht hve hmc htv hsa hw
    simp only [calculateModelStatsSt, calculateModelStats, hsc, ht, hve,
      hmc, htv, hsa, hw]

end ModelViewer
